import Mathlib

/-!
Shallow embedding of the presence-detection pipeline of
`network_scanner.py` (class `NetworkScanner`): MAC normalization,
the three scan strategies with their output parsers, the
first-non-empty fallback chain with its time-based cache
(`get_all_devices`), the roster loader (`_load_colleagues`) and the
matcher (`detect_presence`).

Python strings are embedded as `List Char`; machine-level concerns
(subprocess spawning, wall-clock time) are made explicit parameters:
every `subprocess.run` call site is recorded as an `Invocation` value
and its outcome is supplied by an environment function
`ScanEnv : Invocation → SubprocResult`.
-/

set_option autoImplicit false

abbrev Str := List Char

/-- Whitespace class of Python `str.strip()` / regex `\s` (ASCII range). -/
def isWsChar (c : Char) : Bool :=
  c = ' ' || c = '\t' || c = '\n' || c = '\r' || c = '\x0b' || c = '\x0c'

/-- Python `str.strip()`: drop whitespace from both ends. -/
def stripL (s : Str) : Str :=
  ((s.dropWhile isWsChar).reverse.dropWhile isWsChar).reverse

/-- Python `str.rstrip(c)`: drop a given trailing character repeatedly. -/
def rstripChar (c : Char) (s : Str) : Str :=
  (s.reverse.dropWhile (fun x => x = c)).reverse

/-- Python `str.split(sep)` for a one-character separator. -/
def splitOnCh (sep : Char) : Str → List Str
  | [] => [[]]
  | c :: rest =>
    match splitOnCh sep rest with
    | [] => [[c]]
    | l :: ls => if c = sep then [] :: l :: ls else (c :: l) :: ls

/-- Line splitting, as in `result.stdout.split('\n')`. -/
def splitNl (s : Str) : List Str := splitOnCh '\n' s

/-- Does `hay` start with `needle`? -/
def startsWithL (needle hay : Str) : Bool :=
  match needle, hay with
  | [], _ => true
  | _ :: _, [] => false
  | a :: as, b :: bs => a = b && startsWithL as bs

/-- Python `needle in hay` substring containment. -/
def containsSub (needle : Str) : Str → Bool
  | [] => startsWithL needle []
  | c :: rest => startsWithL needle (c :: rest) || containsSub needle rest

/-- Character class of the regex `[a-fA-F0-9]` used by `_normalize_mac`
(`re.sub(r'[^a-fA-F0-9]', '', mac)` keeps exactly these). -/
def isHexChar (c : Char) : Bool :=
  (48 ≤ c.toNat && c.toNat ≤ 57) ||
  (65 ≤ c.toNat && c.toNat ≤ 70) ||
  (97 ≤ c.toNat && c.toNat ≤ 102)

/-- The join `':'.join(clean[i:i+2] for i in range(0, 12, 2))`: groups of
two characters separated by colons (agrees with the Python expression on
the guarded case `clean.length = 12`). -/
def colonGroups : Str → Str
  | a :: b :: rest =>
    if rest = [] then [a, b] else a :: b :: ':' :: colonGroups rest
  | s => s

/-- `NetworkScanner._normalize_mac`: empty/falsy input → `None`; strip all
non-hex characters; exactly 12 hex digits required; re-group in pairs
joined by `':'` and uppercase the result. -/
def normalize_mac (mac : Str) : Option Str :=
  if mac = [] then none
  else
    let clean := mac.filter isHexChar
    if clean.length = 12 then some ((colonGroups clean).map Char.toUpper) else none

/-- Uppercase-hex character class `[0-9A-F]`. -/
def isUpperHexChar (c : Char) : Bool :=
  (48 ≤ c.toNat && c.toNat ≤ 57) || (65 ≤ c.toNat && c.toNat ≤ 70)

/-- The canonical rendering `AA:BB:CC:DD:EE:FF`: six groups of two
uppercase hex digits joined by colons. -/
def isNormalizedForm (s : Str) : Bool :=
  match s with
  | [a1, a2, s1, b1, b2, s2, c1, c2, s3, d1, d2, s4, e1, e2, s5, f1, f2] =>
    isUpperHexChar a1 && isUpperHexChar a2 && s1 = ':' &&
    isUpperHexChar b1 && isUpperHexChar b2 && s2 = ':' &&
    isUpperHexChar c1 && isUpperHexChar c2 && s3 = ':' &&
    isUpperHexChar d1 && isUpperHexChar d2 && s4 = ':' &&
    isUpperHexChar e1 && isUpperHexChar e2 && s5 = ':' &&
    isUpperHexChar f1 && isUpperHexChar f2
  | _ => false

example : normalize_mac "aa-bb-cc-dd-ee-ff".toList = some "AA:BB:CC:DD:EE:FF".toList := by decide

example : normalize_mac "not-a-mac".toList = none := by decide

/-! ## Regex models

Each regex used by the scanner is modelled by a dedicated matcher with
Python `re` semantics (leftmost match, greedy quantifiers; the patterns
at hand are deterministic because every greedy run is followed by a
character outside its class). -/

/-- Case-insensitive test that `hay` starts with `needle` (the
`re.IGNORECASE` flag applied to a literal regex part). -/
def startsWithCI (needle hay : Str) : Bool :=
  match needle, hay with
  | [], _ => true
  | _ :: _, [] => false
  | a :: as, b :: bs => a.toLower = b.toLower && startsWithCI as bs

/-- One attempt of `re.search(lit ++ (cls)+, s)` anchored at the current
position: the literal must match here (case-insensitively when `ci`),
then the capture is the maximal non-empty run of `cls` characters. -/
def matchLitCapAt (ci : Bool) (lit : Str) (cls : Char → Bool) (s : Str) : Option Str :=
  if (if ci then startsWithCI lit s else startsWithL lit s) then
    let cap := (s.drop lit.length).takeWhile cls
    if cap = [] then none else some cap
  else none

/-- `re.search` for a pattern of shape `literal([cls]+)`: try each start
position left to right, return the first capture. -/
def reSearchCap (ci : Bool) (lit : Str) (cls : Char → Bool) : Str → Option Str
  | [] => matchLitCapAt ci lit cls []
  | c :: rest =>
    match matchLitCapAt ci lit cls (c :: rest) with
    | some cap => some cap
    | none => reSearchCap ci lit cls rest

/-- Character class `[\d\.]` of the nmap IP pattern. -/
def isDigitDot (c : Char) : Bool := (48 ≤ c.toNat && c.toNat ≤ 57) || c = '.'

/-- Character class `[\w:]` of the nmap MAC pattern (`\w` = `[a-zA-Z0-9_]`). -/
def isWordColonChar (c : Char) : Bool :=
  (48 ≤ c.toNat && c.toNat ≤ 57) || (65 ≤ c.toNat && c.toNat ≤ 90) ||
  (97 ≤ c.toNat && c.toNat ≤ 122) || c = '_' || c = ':'

/-- Separator class `[:-]` of the arp-scan MAC pattern. -/
def isMacSep (c : Char) : Bool := c = ':' || c = '-'

/-- `n+1` hex pairs, the first `n` of them followed by a `[:-]` separator. -/
def macPairsSep : Nat → Str → Bool
  | 0, [a, b] => isHexChar a && isHexChar b
  | n+1, a :: b :: x :: rest => isHexChar a && isHexChar b && isMacSep x && macPairsSep n rest
  | _, _ => false

/-- Full-string match of `^([0-9A-Fa-f]{2}[:-]){5}([0-9A-Fa-f]{2})$`
(the plausibility check of `scan_with_arp`). -/
def isArpMacRe (s : Str) : Bool := macPairsSep 5 s

/-- Character class `[0-9a-fA-F:]` of the ARP-table MAC pattern. -/
def isHexColon (c : Char) : Bool := isHexChar c || c = ':'

/-- Digit class `\d`. -/
def isDigitCh (c : Char) : Bool := 48 ≤ c.toNat && c.toNat ≤ 57

/-- `\d+` followed by a literal character: maximal digit run, then `c`. -/
def digitsThen (c : Char) (s : Str) : Option (Str × Str) :=
  let d := s.takeWhile isDigitCh
  if d = [] then none
  else
    match s.drop d.length with
    | x :: rest => if x = c then some (d, rest) else none
    | [] => none

/-- One attempt of the ARP-table pattern
`(\S+)\s+\((\d+\.\d+\.\d+\.\d+)\)\s+at\s+([0-9a-fA-F:]+)` anchored at the
current position; returns the three captures (hostname, ip, mac). -/
def arpTableMatchAt (s : Str) : Option (Str × Str × Str) :=
  let host := s.takeWhile (fun c => !isWsChar c)
  if host = [] then none
  else
    let s1 := s.drop host.length
    let sp := s1.takeWhile isWsChar
    if sp = [] then none
    else
      match s1.drop sp.length with
      | '(' :: s2 =>
        match digitsThen '.' s2 with
        | none => none
        | some (d1, s3) =>
          match digitsThen '.' s3 with
          | none => none
          | some (d2, s4) =>
            match digitsThen '.' s4 with
            | none => none
            | some (d3, s5) =>
              match digitsThen ')' s5 with
              | none => none
              | some (d4, s6) =>
                let sp2 := s6.takeWhile isWsChar
                if sp2 = [] then none
                else
                  match s6.drop sp2.length with
                  | 'a' :: 't' :: s7 =>
                    let sp3 := s7.takeWhile isWsChar
                    if sp3 = [] then none
                    else
                      let mac := (s7.drop sp3.length).takeWhile isHexColon
                      if mac = [] then none
                      else some (host, d1 ++ '.' :: d2 ++ '.' :: d3 ++ '.' :: d4, mac)
                  | _ => none
      | _ => none

/-- `re.search` of the ARP-table pattern: first start position that matches. -/
def arpTableSearch : Str → Option (Str × Str × Str)
  | [] => arpTableMatchAt []
  | c :: rest =>
    match arpTableMatchAt (c :: rest) with
    | some r => some r
    | none => arpTableSearch rest

/-! ## Devices, subprocess model, scan strategies -/

/-- A device record as built by the three parsers (dict with keys
`ip`, `mac`, and `vendor` or `hostname`; the `timestamp` value
`datetime.now().isoformat()` is not modelled). `mac` is `none` when
`_normalize_mac` returned `None` for the entry. -/
structure Device where
  ip : Str
  mac : Option Str
  vendor : Option Str
  hostname : Option Str
deriving Repr, DecidableEq

/-- Outcome of one `subprocess.run` call: normal completion with exit
code and captured output, a `TimeoutExpired` raise, or any other raise. -/
inductive SubprocResult where
  | completed (returncode : Int) (stdout : Str) (stderr : Str)
  | timedout
  | raised
deriving Repr, DecidableEq

/-- The argument vector and `timeout=` keyword of one `subprocess.run`
call site. `timeoutSec = none` means no timeout argument was passed. -/
structure Invocation where
  cmd : List Str
  timeoutSec : Option Nat
deriving Repr, DecidableEq

/-- `subprocess.run(['which', tool], capture_output=True, text=True)`. -/
def whichInvocation (tool : Str) : Invocation := ⟨["which".toList, tool], none⟩

/-- The arp-scan call of `scan_with_arp` (`timeout=30`). -/
def arpScanInvocation (iface : Str) : Invocation :=
  ⟨["sudo".toList, "arp-scan".toList, "--localnet".toList, "--interface".toList,
    iface, "--retry=3".toList, "--timeout=3000".toList], some 30⟩

/-- The nmap call of `scan_with_nmap` (`timeout=60`). -/
def nmapInvocation (range : Str) : Invocation :=
  ⟨["nmap".toList, "-sn".toList, range, "--max-retries".toList, "1".toList,
    "--max-rtt-timeout".toList, "500ms".toList, "--host-timeout".toList, "5s".toList], some 60⟩

/-- The `arp -a` call of `_scan_arp_table`: no timeout argument. -/
def arpTableInvocation : Invocation := ⟨["arp".toList, "-a".toList], none⟩

/-- The external world: maps each subprocess invocation to its outcome. -/
abbrev ScanEnv := Invocation → SubprocResult

/-- One line of arp-scan output: skipped when empty or a header/footer
line; otherwise split on tabs, take `ip` and `raw_mac`, keep the entry
only when `raw_mac` matches the 6-octet plausibility regex. -/
def arpParseLine (line : Str) : Option Device :=
  if line = [] || containsSub "arp-scan".toList line || containsSub "packets".toList line then
    none
  else
    match splitOnCh '\t' line with
    | p0 :: p1 :: rest =>
      let raw_mac := stripL p1
      if isArpMacRe raw_mac then
        some ⟨stripL p0, normalize_mac raw_mac,
              some (match rest with | [] => "Unknown".toList | p2 :: _ => stripL p2), none⟩
      else none
    | _ => none

/-- `NetworkScanner.scan_with_arp`: `which arp-scan` gate, then the scan
run; non-zero exit, timeout, or any exception yields the empty list. -/
def scan_with_arp (env : ScanEnv) (iface : Str) : List Device :=
  match env (whichInvocation "arp-scan".toList) with
  | .completed _ out _ =>
    if stripL out = [] then []
    else
      match env (arpScanInvocation iface) with
      | .completed rc out2 _ =>
        if rc ≠ 0 then [] else (splitNl out2).filterMap arpParseLine
      | .timedout => []
      | .raised => []
  | .timedout => []
  | .raised => []

/-- The vendor expression `line.split('(')[-1].rstrip(')') if '(' in line
else 'Unknown'` of the nmap parser. -/
def nmapVendor (line : Str) : Str :=
  if containsSub ['('] line then rstripChar ')' ((splitOnCh '(' line).getLastD [])
  else "Unknown".toList

/-- One step of the nmap output loop: update `current_ip` when the line
carries `Nmap scan report for <ip>`, and append a device when it carries
`MAC Address: <mac>` and an IP is current. The appended `mac` field is
`_normalize_mac` of the capture — appended even when that is `None`. -/
def nmapStep (st : List Device × Option Str) (line : Str) : List Device × Option Str :=
  let current_ip :=
    match reSearchCap false "Nmap scan report for ".toList isDigitDot line with
    | some ip => some ip
    | none => st.2
  match reSearchCap true "MAC Address: ".toList isWordColonChar line, current_ip with
  | some rawmac, some ip =>
    (st.1 ++ [⟨ip, normalize_mac rawmac, some (nmapVendor line), none⟩], current_ip)
  | _, _ => (st.1, current_ip)

/-- The nmap output parsing loop of `scan_with_nmap`. -/
def nmapParse (lines : List Str) : List Device := (lines.foldl nmapStep ([], none)).1

/-- `NetworkScanner.scan_with_nmap`: `which nmap` gate, then the scan
run; the exit code of the scan is not inspected — stdout is parsed even
after a non-zero exit. Timeout or any exception yields the empty list. -/
def scan_with_nmap (env : ScanEnv) (range : Str) : List Device :=
  match env (whichInvocation "nmap".toList) with
  | .completed _ out _ =>
    if stripL out = [] then []
    else
      match env (nmapInvocation range) with
      | .completed _ out2 _ => nmapParse (splitNl out2)
      | .timedout => []
      | .raised => []
  | .timedout => []
  | .raised => []

/-- One line of `arp -a` output: a device per regex match, with
`_normalize_mac` of the captured mac (appended even when `None`). -/
def arpTableParseLine (line : Str) : Option Device :=
  match arpTableSearch line with
  | some (host, ip, mac) => some ⟨ip, normalize_mac mac, none, some host⟩
  | none => none

/-- `NetworkScanner._scan_arp_table`: run `arp -a` (no timeout bound,
exit code not inspected) and parse each stdout line; any exception
yields the empty list. -/
def scan_arp_table (env : ScanEnv) : List Device :=
  match env arpTableInvocation with
  | .completed _ out _ => (splitNl out).filterMap arpTableParseLine
  | .timedout => []
  | .raised => []

/-! ## Fallback chain with cache, roster loader, matcher -/

/-- The mutable fields of a `NetworkScanner` instance that the presence
pipeline reads and writes. -/
structure ScannerState where
  colleagues : List (String × Str)
  devices_cache : List Device
  last_scan_time : Option Int
  cache_duration : Int
  network_range : Str
  iface : Str
deriving Repr, DecidableEq

/-- Result of `get_all_devices`, with the updated scanner state and a
flag per scan strategy recording whether it was invoked. -/
structure GadOut where
  devices : List Device
  state : ScannerState
  ranArpScan : Bool
  ranNmap : Bool
  ranArpTable : Bool
deriving Repr, DecidableEq

/-- The cache age test `cache_age < self.cache_duration`, where
`cache_age` is `float('inf')` when no scan has happened yet. -/
def cacheFresh (st : ScannerState) (now : Int) : Bool :=
  match st.last_scan_time with
  | some t => decide (now - t < st.cache_duration)
  | none => false

/-- `NetworkScanner.get_all_devices`: serve the cached list when
`use_cache` is set, the cache is non-empty and fresh; otherwise run
arp-scan, then nmap if that was empty, then the ARP table if still
empty, and memoize the final list with the current time. -/
def get_all_devices (st : ScannerState) (now : Int) (use_cache : Bool) (env : ScanEnv) : GadOut :=
  if use_cache && !st.devices_cache.isEmpty && cacheFresh st now then
    ⟨st.devices_cache, st, false, false, false⟩
  else
    let d1 := scan_with_arp env st.iface
    let d2 := if d1 = [] then scan_with_nmap env st.network_range else d1
    let d3 := if d2 = [] then scan_arp_table env else d2
    ⟨d3, ⟨st.colleagues, d3, some now, st.cache_duration, st.network_range, st.iface⟩,
     true, d1.isEmpty, d2.isEmpty⟩

/-- The observed-MAC set `{d['mac'] for d in devices if d.get('mac')}`
(membership is all that is used of it, so a list represents it). -/
def observedMacs (devices : List Device) : List Str :=
  devices.filterMap (fun d =>
    match d.mac with
    | some m => if m.isEmpty then none else some m
    | none => none)

/-- The classification loop of `detect_presence`: roster entries in
order, each name appended to `present` when its MAC is among the
observed MACs and to `absent` otherwise. -/
def matchLoop (macs : List Str) : List (String × Str) → List String × List String
  | [] => ([], [])
  | (name, mac) :: rest =>
    let pa := matchLoop macs rest
    if mac ∈ macs then (name :: pa.1, pa.2) else (pa.1, name :: pa.2)

/-- The matcher of `NetworkScanner.detect_presence` as a function of the
roster and the discovered-device list: empty roster → two empty lists;
empty device list → everyone absent; otherwise the classification loop. -/
def detect_presence (colleagues : List (String × Str)) (devices : List Device) :
    List String × List String :=
  if colleagues = [] then ([], [])
  else if devices = [] then ([], colleagues.map Prod.fst)
  else matchLoop (observedMacs devices) colleagues

/-- State of the colleagues configuration file: absent, raising on
read/parse, or successfully parsed into name→rawMac pairs. -/
inductive ConfigSource where
  | missing
  | unreadable
  | parsed (entries : List (String × Str))
deriving Repr, DecidableEq

/-- A Python `try: ... except Exception: return dflt` block. -/
def catchAll {α : Type} (x : Except String α) (dflt : α) : α :=
  match x with
  | .ok v => v
  | .error _ => dflt

/-- Body of `NetworkScanner._load_colleagues` before its `except`
handler: a missing file returns `{}` early; a read/parse failure raises;
otherwise each entry is kept under its normalized MAC and entries whose
MAC fails to normalize are dropped. -/
def load_colleagues_raw : ConfigSource → Except String (List (String × Str))
  | .missing => .ok []
  | .unreadable => .error "failed to read or parse colleagues file"
  | .parsed entries =>
    .ok (entries.filterMap (fun nm => (normalize_mac nm.2).map (fun m => (nm.1, m))))

/-- `NetworkScanner._load_colleagues`: the body wrapped in
`try/except Exception`, degrading to the empty roster. -/
def load_colleagues (cfg : ConfigSource) : List (String × Str) :=
  catchAll (load_colleagues_raw cfg) []

/-- The full presence pipeline: load the roster (as `__init__` does),
run `get_all_devices(use_cache=True)`, and classify. -/
def detect_presence_pipeline (cfg : ConfigSource) (st0 : ScannerState) (now : Int)
    (env : ScanEnv) : (List String × List String) × ScannerState :=
  let colleagues := load_colleagues cfg
  let out := get_all_devices
    ⟨colleagues, st0.devices_cache, st0.last_scan_time, st0.cache_duration,
     st0.network_range, st0.iface⟩ now true env
  (detect_presence colleagues out.devices, out.state)

example :
    nmapParse (splitNl "Nmap scan report for 10.0.0.9\nMAC Address: AA:BB:CC:DD:EE:FF (Foo)".toList) =
      [⟨"10.0.0.9".toList, some "AA:BB:CC:DD:EE:FF".toList, some "Foo".toList, none⟩] := by
  decide

example :
    arpTableParseLine "? (192.168.1.7) at aa:bb:cc:dd:ee:ff [ether] on wlan0".toList =
      some ⟨"192.168.1.7".toList, some "AA:BB:CC:DD:EE:FF".toList, none, some "?".toList⟩ := by
  decide

example :
    arpParseLine "192.168.1.2\t1a:2b:3c:4d:5e:6f\tSomeVendor".toList =
      some ⟨"192.168.1.2".toList, some "1A:2B:3C:4D:5E:6F".toList, some "SomeVendor".toList, none⟩ := by
  decide

/-- The truthiness test `d.get('mac')` of `detect_presence`: the `mac`
value must be present and a non-empty string. -/
def truthyMac (d : Device) : Bool :=
  match d.mac with
  | some m => !m.isEmpty
  | none => false

/-! Concrete environments and states used to evaluate the theorems on
closed inputs. -/

/-- An environment where every subprocess call raises. -/
def envRaisedAll : ScanEnv := fun _ => SubprocResult.raised

/-- An environment where arp-scan is not installed, nmap is installed and
its scan reports one device with a well-formed MAC. -/
def envNmapOk : ScanEnv := fun inv =>
  if inv = whichInvocation "arp-scan".toList then SubprocResult.completed 0 [] []
  else if inv = whichInvocation "nmap".toList then
    SubprocResult.completed 0 "/usr/bin/nmap".toList []
  else if inv = nmapInvocation "192.168.1.0/24".toList then
    SubprocResult.completed 0
      "Nmap scan report for 192.168.1.5\nMAC Address: 0A:1B:2C:3D:4E:5F (AcmeCo)".toList []
  else SubprocResult.raised

/-- An environment where nmap is installed but its scan exits non-zero
while still printing one host with a well-formed MAC on stdout. -/
def envNmapNonzero : ScanEnv := fun inv =>
  if inv = whichInvocation "nmap".toList then
    SubprocResult.completed 0 "/usr/bin/nmap".toList []
  else if inv = nmapInvocation "10.0.0.0/24".toList then
    SubprocResult.completed 1
      "Nmap scan report for 10.0.0.5\nMAC Address: 0A:1B:2C:3D:4E:5F (AcmeCo)".toList []
  else SubprocResult.raised

/-- An environment where the nmap scan reports a host whose MAC has only
10 hex digits, so its normalization fails. -/
def envNmapShortMac : ScanEnv := fun inv =>
  if inv = whichInvocation "nmap".toList then
    SubprocResult.completed 0 "/usr/bin/nmap".toList []
  else if inv = nmapInvocation "10.0.0.0/24".toList then
    SubprocResult.completed 0
      "Nmap scan report for 10.0.0.5\nMAC Address: AA:BB:CC:DD:EE (AcmeCo)".toList []
  else SubprocResult.raised

/-- An environment where nmap is installed but its scan times out. -/
def envNmapTimeout : ScanEnv := fun inv =>
  if inv = whichInvocation "nmap".toList then
    SubprocResult.completed 0 "/usr/bin/nmap".toList []
  else if inv = nmapInvocation "10.0.0.0/24".toList then SubprocResult.timedout
  else SubprocResult.raised

/-- An environment where arp-scan is installed and reports one device. -/
def envArpOk : ScanEnv := fun inv =>
  if inv = whichInvocation "arp-scan".toList then
    SubprocResult.completed 0 "/usr/bin/arp-scan".toList []
  else if inv = arpScanInvocation "wlan0".toList then
    SubprocResult.completed 0 "192.168.1.2\t0a:1b:2c:3d:4e:5f\tAcme".toList []
  else SubprocResult.raised

/-- A scanner state with no colleagues, an empty memoized device list,
and a last scan at time 0. -/
def stEmptyCache : ScannerState :=
  ⟨[], [], some 0, 300, "192.168.1.0/24".toList, "wlan0".toList⟩

/-- A scanner state whose memoized device list holds one device, scanned
at time 0. -/
def stOneCached : ScannerState :=
  ⟨[], [⟨"192.168.1.2".toList, some "0A:1B:2C:3D:4E:5F".toList, some "Acme".toList, none⟩],
   some 0, 300, "192.168.1.0/24".toList, "wlan0".toList⟩

/-! ## Character-level lemmas -/

/-- A character accepted by the hex class is one of the 22 hex digits. -/
theorem isHexChar_enum (c : Char) (h : isHexChar c = true) :
    c ∈ "0123456789ABCDEFabcdef".toList := by
  have h0 : Char.ofNat c.toNat = c := Char.ofNat_toNat c
  simp only [isHexChar, Bool.or_eq_true, Bool.and_eq_true, decide_eq_true_eq] at h
  generalize c.toNat = n at h h0
  subst h0
  rcases h with (h | h) | h
  · obtain ⟨h1, h2⟩ := h
    interval_cases n <;> decide
  · obtain ⟨h1, h2⟩ := h
    interval_cases n <;> decide
  · obtain ⟨h1, h2⟩ := h
    interval_cases n <;> decide

/-- Uppercasing a hex digit yields a hex digit, in the uppercase class,
and uppercasing is idempotent on it. -/
theorem toUpper_hex (c : Char) (h : isHexChar c = true) :
    isHexChar c.toUpper = true ∧ isUpperHexChar c.toUpper = true ∧
      c.toUpper.toUpper = c.toUpper := by
  have hm := isHexChar_enum c h
  fin_cases hm <;> exact ⟨by decide, by decide, by decide⟩

theorem toUpper_colon : Char.toUpper ':' = ':' := by decide

theorem isHexChar_colon : isHexChar ':' = false := by decide

/-! ## Lemmas about `colonGroups` and `normalize_mac` -/

theorem colonGroups_map (f : Char → Char) (hf : f ':' = ':') (l : Str) :
    colonGroups (l.map f) = (colonGroups l).map f := by
  induction l using colonGroups.induct with
  | case1 a b => simp [colonGroups]
  | case2 a b rest hne ih =>
    have hm : rest.map f ≠ [] := by simpa using hne
    simp [colonGroups, hne, hm, ih, hf]
  | case3 s hs =>
    rcases s with _ | ⟨a, _ | ⟨b, rest⟩⟩
    · rfl
    · rfl
    · exact absurd rfl (hs a b rest)

theorem mem_colonGroups {x : Char} {l : Str} (h : x ∈ colonGroups l) : x ∈ l ∨ x = ':' := by
  induction l using colonGroups.induct with
  | case1 a b =>
    simp [colonGroups] at h
    rcases h with h | h <;> simp [h]
  | case2 a b rest hne ih =>
    simp [colonGroups, hne] at h
    rcases h with h | h | h | h
    · simp [h]
    · simp [h]
    · simp [h]
    · rcases ih h with h' | h'
      · simp [h']
      · simp [h']
  | case3 s hs =>
    rcases s with _ | ⟨a, _ | ⟨b, rest⟩⟩
    · have hrw : colonGroups ([] : Str) = [] := rfl
      rw [hrw] at h
      exact absurd h (List.not_mem_nil x)
    · have hrw : colonGroups [a] = [a] := rfl
      rw [hrw] at h
      exact Or.inl h
    · exact absurd rfl (hs a b rest)

theorem filter_hex_colonGroups_upper (l : Str) (hl : ∀ x ∈ l, isHexChar x = true) :
    ((colonGroups l).map Char.toUpper).filter isHexChar = l.map Char.toUpper := by
  induction l using colonGroups.induct with
  | case1 a b =>
    have ha := (toUpper_hex a (hl a (by simp))).1
    have hb := (toUpper_hex b (hl b (by simp))).1
    simp [colonGroups, List.filter_cons, ha, hb]
  | case2 a b rest hne ih =>
    have ha := (toUpper_hex a (hl a (by simp))).1
    have hb := (toUpper_hex b (hl b (by simp))).1
    have hcol : isHexChar (Char.toUpper ':') = false := by decide
    have ihr := ih (fun x hx => hl x (by simp [hx]))
    simp [colonGroups, hne, List.filter_cons, ha, hb, hcol, isHexChar_colon, ihr]
  | case3 s hs =>
    rcases s with _ | ⟨a, _ | ⟨b, rest⟩⟩
    · rfl
    · have ha := (toUpper_hex a (hl a (by simp))).1
      have hrw : colonGroups [a] = [a] := rfl
      rw [hrw]
      simp [List.filter_cons, ha]
    · exact absurd rfl (hs a b rest)

theorem exists_twelve {α : Type} (l : List α) (h : l.length = 12) :
    ∃ a b c d e f g h' i j k m, l = [a, b, c, d, e, f, g, h', i, j, k, m] := by
  rcases l with _ | ⟨a, l⟩
  · simp at h
  rcases l with _ | ⟨b, l⟩
  · simp at h
  rcases l with _ | ⟨c, l⟩
  · simp at h
  rcases l with _ | ⟨d, l⟩
  · simp at h
  rcases l with _ | ⟨e, l⟩
  · simp at h
  rcases l with _ | ⟨f, l⟩
  · simp at h
  rcases l with _ | ⟨g, l⟩
  · simp at h
  rcases l with _ | ⟨h', l⟩
  · simp at h
  rcases l with _ | ⟨i, l⟩
  · simp at h
  rcases l with _ | ⟨j, l⟩
  · simp at h
  rcases l with _ | ⟨k, l⟩
  · simp at h
  rcases l with _ | ⟨m, l⟩
  · simp at h
  have hz : l.length = 0 := by
    simp only [List.length_cons] at h
    omega
  rw [List.eq_nil_of_length_eq_zero hz]
  exact ⟨a, b, c, d, e, f, g, h', i, j, k, m, rfl⟩

theorem normalize_mac_core (s : Str) (h12 : (s.filter isHexChar).length = 12) :
    normalize_mac s = some ((colonGroups (s.filter isHexChar)).map Char.toUpper) ∧
    (((colonGroups (s.filter isHexChar)).map Char.toUpper).filter isHexChar).length = 12 ∧
    isNormalizedForm ((colonGroups (s.filter isHexChar)).map Char.toUpper) = true ∧
    normalize_mac ((colonGroups (s.filter isHexChar)).map Char.toUpper) =
      some ((colonGroups (s.filter isHexChar)).map Char.toUpper) := by
  have hs : s ≠ [] := by
    intro hnil
    subst hnil
    simp at h12
  have hhex : ∀ x ∈ s.filter isHexChar, isHexChar x = true := fun x hx => List.of_mem_filter hx
  have h1 : normalize_mac s = some ((colonGroups (s.filter isHexChar)).map Char.toUpper) := by
    unfold normalize_mac
    rw [if_neg hs, if_pos h12]
  have hfilter := filter_hex_colonGroups_upper (s.filter isHexChar) hhex
  have h2 : (((colonGroups (s.filter isHexChar)).map Char.toUpper).filter isHexChar).length = 12 := by
    rw [hfilter, List.length_map]
    exact h12
  obtain ⟨a, b, c, d, e, f, g, h', i, j, k, m, hc⟩ := exists_twelve (s.filter isHexChar) h12
  have hcg : colonGroups [a, b, c, d, e, f, g, h', i, j, k, m] =
      [a, b, ':', c, d, ':', e, f, ':', g, h', ':', i, j, ':', k, m] := rfl
  rw [hc] at hhex
  have h3 : isNormalizedForm ((colonGroups (s.filter isHexChar)).map Char.toUpper) = true := by
    rw [hc, hcg]
    have ua := (toUpper_hex a (hhex a (by simp))).2.1
    have ub := (toUpper_hex b (hhex b (by simp))).2.1
    have uc := (toUpper_hex c (hhex c (by simp))).2.1
    have ud := (toUpper_hex d (hhex d (by simp))).2.1
    have ue := (toUpper_hex e (hhex e (by simp))).2.1
    have uf := (toUpper_hex f (hhex f (by simp))).2.1
    have ug := (toUpper_hex g (hhex g (by simp))).2.1
    have uh := (toUpper_hex h' (hhex h' (by simp))).2.1
    have ui := (toUpper_hex i (hhex i (by simp))).2.1
    have uj := (toUpper_hex j (hhex j (by simp))).2.1
    have uk := (toUpper_hex k (hhex k (by simp))).2.1
    have um := (toUpper_hex m (hhex m (by simp))).2.1
    simp [isNormalizedForm, toUpper_colon, ua, ub, uc, ud, ue, uf, ug, uh, ui, uj, uk, um]
  have h4 : normalize_mac ((colonGroups (s.filter isHexChar)).map Char.toUpper) =
      some ((colonGroups (s.filter isHexChar)).map Char.toUpper) := by
    have hne : (colonGroups (s.filter isHexChar)).map Char.toUpper ≠ [] := by
      rw [hc, hcg]
      simp
    unfold normalize_mac
    rw [if_neg hne, hfilter]
    simp only [List.length_map]
    rw [if_pos h12, colonGroups_map Char.toUpper toUpper_colon, List.map_map]
    congr 1
    apply List.map_congr_left
    intro x hx
    rcases mem_colonGroups hx with hmem | hcol
    · rw [hc] at hmem
      exact (toUpper_hex x (hhex x hmem)).2.2
    · subst hcol
      decide
  exact ⟨h1, h2, h3, h4⟩

theorem normalize_mac_eq_none (s : Str) (h : (s.filter isHexChar).length ≠ 12) :
    normalize_mac s = none := by
  by_cases hs : s = []
  · subst hs
    rfl
  · unfold normalize_mac
    rw [if_neg hs]
    simp [h]

/-- Every `normalize_mac` result is either `none` or a canonical
`AA:BB:CC:DD:EE:FF` string with exactly 12 hex digits. -/
theorem normalize_mac_cases (s : Str) :
    normalize_mac s = none ∨
      ∃ m, normalize_mac s = some m ∧ isNormalizedForm m = true ∧
        (m.filter isHexChar).length = 12 := by
  by_cases h12 : (s.filter isHexChar).length = 12
  · obtain ⟨h1, h2, h3, _⟩ := normalize_mac_core s h12
    exact Or.inr ⟨_, h1, h3, h2⟩
  · exact Or.inl (normalize_mac_eq_none s h12)

/-- C2: for every input that strips to exactly 12 hex digits (arbitrary
separators and casing), `_normalize_mac` returns the uppercase
colon-separated six-group form, and normalization is idempotent:
renormalizing the result returns it unchanged. -/
theorem normalize_mac_valid_and_idem (s : Str)
    (h12 : (s.filter isHexChar).length = 12) :
    ∃ t, normalize_mac s = some t ∧ isNormalizedForm t = true ∧ normalize_mac t = some t := by
  obtain ⟨h1, _, h3, h4⟩ := normalize_mac_core s h12
  exact ⟨_, h1, h3, h4⟩

/-- Witness for C2 on the mixed-case, mixed-separator input
`aA-bb:cc dd.eeff`. -/
theorem normalize_mac_valid_and_idem_witness :
    (("aA-bb:cc dd.eeff".toList.filter isHexChar).length = 12) ∧
    (∃ t, normalize_mac "aA-bb:cc dd.eeff".toList = some t ∧ isNormalizedForm t = true ∧
      normalize_mac t = some t) :=
  ⟨by decide, normalize_mac_valid_and_idem _ (by decide)⟩

/-- C9: `_normalize_mac` succeeds exactly on inputs that strip to 12 hex
digits (returning `None`, not raising, otherwise — including the empty
string), and every successful result itself has exactly 12 hex digits. -/
theorem normalize_mac_some_iff (s : Str) :
    ((normalize_mac s).isSome = true ↔ (s.filter isHexChar).length = 12) ∧
    (∀ t, normalize_mac s = some t → (t.filter isHexChar).length = 12) := by
  constructor
  · constructor
    · intro hsome
      by_contra hne
      rw [normalize_mac_eq_none s hne] at hsome
      simp at hsome
    · intro h12
      rw [(normalize_mac_core s h12).1]
      rfl
  · intro t ht
    by_cases h12 : (s.filter isHexChar).length = 12
    · obtain ⟨h1, h2, _, _⟩ := normalize_mac_core s h12
      rw [h1] at ht
      injection ht with ht
      rw [← ht]
      exact h2
    · rw [normalize_mac_eq_none s h12] at ht
      exact absurd ht (by simp)

/-- Witness for C9 on the too-short input `123`. -/
theorem normalize_mac_some_iff_witness :
    ((normalize_mac "123".toList).isSome = true ↔
      ("123".toList.filter isHexChar).length = 12) ∧
    (normalize_mac "123".toList = none) :=
  ⟨(normalize_mac_some_iff "123".toList).1, by decide⟩

/-! ## Lemmas about the matcher -/

theorem matchLoop_eq (macs : List Str) (colls : List (String × Str)) :
    matchLoop macs colls =
      ((colls.filter (fun cm => decide (cm.2 ∈ macs))).map Prod.fst,
       (colls.filter (fun cm => !decide (cm.2 ∈ macs))).map Prod.fst) := by
  induction colls with
  | nil => rfl
  | cons hd tl ih =>
    obtain ⟨name, mac⟩ := hd
    by_cases hm : mac ∈ macs
    · simp [matchLoop, ih, List.filter_cons, hm]
    · simp [matchLoop, ih, List.filter_cons, hm]

theorem matchLoop_nil_macs (colls : List (String × Str)) :
    matchLoop [] colls = ([], colls.map Prod.fst) := by
  induction colls with
  | nil => rfl
  | cons hd tl ih =>
    obtain ⟨name, mac⟩ := hd
    simp [matchLoop, ih]

theorem filterMap_filter_of_none {α β : Type} (p : α → Bool) (f : α → Option β)
    (hpf : ∀ a, p a = false → f a = none) (l : List α) :
    (l.filter p).filterMap f = l.filterMap f := by
  induction l with
  | nil => rfl
  | cons a l ih =>
    rw [List.filter_cons]
    by_cases hp : p a = true
    · rw [if_pos hp, List.filterMap_cons, List.filterMap_cons, ih]
    · have hp' : p a = false := by
        cases hb : p a with
        | true => exact absurd hb hp
        | false => rfl
      rw [if_neg hp, List.filterMap_cons, hpf a hp']
      exact ih

theorem observedMacs_filter_truthy (devices : List Device) :
    observedMacs (devices.filter truthyMac) = observedMacs devices := by
  unfold observedMacs
  apply filterMap_filter_of_none
  intro d hd
  unfold truthyMac at hd
  cases hdm : d.mac with
  | none => simp [hdm]
  | some m =>
    rw [hdm] at hd
    simp at hd
    simp [hdm, hd]

theorem mem_observedMacs (devices : List Device) (m : Str) :
    m ∈ observedMacs devices ↔ ∃ d ∈ devices, d.mac = some m ∧ m ≠ [] := by
  unfold observedMacs
  rw [List.mem_filterMap]
  constructor
  · rintro ⟨d, hd, hfd⟩
    refine ⟨d, hd, ?_⟩
    cases hdm : d.mac with
    | none =>
      rw [hdm] at hfd
      simp at hfd
    | some m2 =>
      rw [hdm] at hfd
      by_cases hm2 : m2.isEmpty = true
      · simp [hm2] at hfd
      · simp [hm2] at hfd
        subst hfd
        refine ⟨rfl, ?_⟩
        cases m2 with
        | nil => simp at hm2
        | cons x xs => simp
  · rintro ⟨d, hd, hdm, hm⟩
    refine ⟨d, hd, ?_⟩
    rw [hdm]
    have hie : m.isEmpty = false := by
      cases m with
      | nil => exact absurd rfl hm
      | cons x xs => rfl
    simp [hie]

theorem observedMacs_eq_nil_iff (devices : List Device) :
    observedMacs devices = [] ↔ devices.filter truthyMac = [] := by
  constructor
  · intro h
    cases hF : devices.filter truthyMac with
    | nil => rfl
    | cons d0 tl =>
      exfalso
      have hd0 : d0 ∈ devices.filter truthyMac := by
        rw [hF]
        simp
      have hmem := List.mem_filter.mp hd0
      have ht := hmem.2
      unfold truthyMac at ht
      cases hdm : d0.mac with
      | none =>
        rw [hdm] at ht
        simp at ht
      | some m =>
        rw [hdm] at ht
        simp at ht
        have : m ∈ observedMacs devices :=
          (mem_observedMacs devices m).mpr ⟨d0, hmem.1, hdm, by simpa [List.isEmpty_iff] using ht⟩
        rw [h] at this
        exact absurd this (List.not_mem_nil m)
  · intro h
    rw [← observedMacs_filter_truthy, h]
    rfl

/-- Sublist and coverage facts about `detect_presence`, valid for any
roster list (no distinctness needed). -/
theorem detect_presence_sub_cover (colleagues : List (String × Str)) (devices : List Device) :
    (detect_presence colleagues devices).1.Sublist (colleagues.map Prod.fst) ∧
    (detect_presence colleagues devices).2.Sublist (colleagues.map Prod.fst) ∧
    (∀ n, n ∈ colleagues.map Prod.fst ↔
      (n ∈ (detect_presence colleagues devices).1 ∨
       n ∈ (detect_presence colleagues devices).2)) := by
  unfold detect_presence
  by_cases hc : colleagues = []
  · subst hc
    simp
  · rw [if_neg hc]
    by_cases hd : devices = []
    · rw [if_pos hd]
      exact ⟨List.nil_sublist _, List.Sublist.refl _, by simp⟩
    · rw [if_neg hd, matchLoop_eq]
      refine ⟨(List.filter_sublist colleagues).map Prod.fst,
              (List.filter_sublist colleagues).map Prod.fst, ?_⟩
      intro n
      constructor
      · intro hn
        rw [List.mem_map] at hn
        obtain ⟨cm, hcm, rfl⟩ := hn
        by_cases hm : cm.2 ∈ observedMacs devices
        · exact Or.inl (List.mem_map.mpr ⟨cm, List.mem_filter.mpr ⟨hcm, by simp [hm]⟩, rfl⟩)
        · exact Or.inr (List.mem_map.mpr ⟨cm, List.mem_filter.mpr ⟨hcm, by simp [hm]⟩, rfl⟩)
      · intro hn
        rcases hn with hn | hn <;>
          (rw [List.mem_map] at hn ⊢
           obtain ⟨cm, hcm, rfl⟩ := hn
           exact ⟨cm, (List.mem_filter.mp hcm).1, rfl⟩)

/-- When the roster names are distinct (Python dict keys), no name is
classified both present and absent. -/
theorem detect_presence_disjoint (colleagues : List (String × Str)) (devices : List Device)
    (hnd : (colleagues.map Prod.fst).Nodup) :
    ∀ n, ¬(n ∈ (detect_presence colleagues devices).1 ∧
           n ∈ (detect_presence colleagues devices).2) := by
  intro n
  unfold detect_presence
  by_cases hc : colleagues = []
  · subst hc
    simp
  · rw [if_neg hc]
    by_cases hd : devices = []
    · rw [if_pos hd]
      simp
    · rw [if_neg hd, matchLoop_eq]
      rintro ⟨hp, ha⟩
      rw [List.mem_map] at hp ha
      obtain ⟨c1, hc1, he1⟩ := hp
      obtain ⟨c2, hc2, he2⟩ := ha
      have hm1 := List.mem_filter.mp hc1
      have hm2 := List.mem_filter.mp hc2
      have h12 : c1 = c2 :=
        List.inj_on_of_nodup_map hnd hm1.1 hm2.1 (he1.trans he2.symm)
      have hq1 := hm1.2
      have hq2 := hm2.2
      rw [h12] at hq1
      simp at hq1 hq2
      exact absurd hq1 hq2

/-- C1: for every roster and every device list, `detect_presence`
returns two name lists that strictly partition the roster's names: both
are sublists of the roster-name sequence (hence preserve its order and
contain no other names), every roster name lands in one of the two, none
in both, and neither list repeats a name. -/
theorem detect_presence_partition (colleagues : List (String × Str)) (devices : List Device)
    (hnd : (colleagues.map Prod.fst).Nodup) :
    (detect_presence colleagues devices).1.Sublist (colleagues.map Prod.fst) ∧
    (detect_presence colleagues devices).2.Sublist (colleagues.map Prod.fst) ∧
    (∀ n, n ∈ colleagues.map Prod.fst ↔
      (n ∈ (detect_presence colleagues devices).1 ∨
       n ∈ (detect_presence colleagues devices).2)) ∧
    (∀ n, ¬(n ∈ (detect_presence colleagues devices).1 ∧
            n ∈ (detect_presence colleagues devices).2)) ∧
    (detect_presence colleagues devices).1.Nodup ∧
    (detect_presence colleagues devices).2.Nodup := by
  obtain ⟨hs1, hs2, hcov⟩ := detect_presence_sub_cover colleagues devices
  exact ⟨hs1, hs2, hcov, detect_presence_disjoint colleagues devices hnd,
         List.Nodup.sublist hs1 hnd, List.Nodup.sublist hs2 hnd⟩

/-- Witness for C1: a two-person roster against one discovered device
whose MAC matches the first person. -/
theorem detect_presence_partition_witness :
    ((([("Alice", "0A:1B:2C:3D:4E:5F".toList), ("Bob", "11:22:33:44:55:66".toList)] :
        List (String × Str)).map Prod.fst).Nodup) ∧
    (∀ n, n ∈ ([("Alice", "0A:1B:2C:3D:4E:5F".toList), ("Bob", "11:22:33:44:55:66".toList)] :
        List (String × Str)).map Prod.fst ↔
      (n ∈ (detect_presence
              [("Alice", "0A:1B:2C:3D:4E:5F".toList), ("Bob", "11:22:33:44:55:66".toList)]
              [⟨"192.168.1.2".toList, some "0A:1B:2C:3D:4E:5F".toList, some "Acme".toList, none⟩]).1 ∨
       n ∈ (detect_presence
              [("Alice", "0A:1B:2C:3D:4E:5F".toList), ("Bob", "11:22:33:44:55:66".toList)]
              [⟨"192.168.1.2".toList, some "0A:1B:2C:3D:4E:5F".toList, some "Acme".toList, none⟩]).2)) :=
  ⟨by decide,
   (detect_presence_partition
      [("Alice", "0A:1B:2C:3D:4E:5F".toList), ("Bob", "11:22:33:44:55:66".toList)]
      [⟨"192.168.1.2".toList, some "0A:1B:2C:3D:4E:5F".toList, some "Acme".toList, none⟩]
      (by decide)).2.2.1⟩

/-- C8: with a non-empty roster and an empty discovered-device list,
`detect_presence` reports nobody present and every roster name absent,
in roster order. -/
theorem detect_presence_all_absent (colleagues : List (String × Str))
    (h : colleagues ≠ []) :
    detect_presence colleagues [] = ([], colleagues.map Prod.fst) := by
  unfold detect_presence
  rw [if_neg h, if_pos rfl]

/-- Witness for C8 on a concrete two-person roster. -/
theorem detect_presence_all_absent_witness :
    detect_presence
        [("Alice", "AA:BB:CC:DD:EE:FF".toList), ("Bob", "11:22:33:44:55:66".toList)] [] =
      ([], ["Alice", "Bob"]) :=
  detect_presence_all_absent _ (by decide)

/-- C10: devices whose `mac` entry is `None` (or empty) are invisible to
the matcher — filtering them away does not change the result — and a
name can only be present because of a device with an actual non-empty
MAC value. -/
theorem detect_presence_ignores_invalid (colleagues : List (String × Str))
    (devices : List Device) :
    detect_presence colleagues devices = detect_presence colleagues (devices.filter truthyMac) ∧
    (∀ n, n ∈ (detect_presence colleagues devices).1 →
      ∃ d m, d ∈ devices ∧ d.mac = some m ∧ m ≠ []) := by
  constructor
  · by_cases hc : colleagues = []
    · subst hc
      rfl
    · by_cases hd : devices = []
      · subst hd
        rfl
      · by_cases hf : devices.filter truthyMac = []
        · have hobs : observedMacs devices = [] := (observedMacs_eq_nil_iff devices).mpr hf
          unfold detect_presence
          rw [if_neg hc, if_neg hd, if_neg hc, if_pos hf, hobs, matchLoop_nil_macs]
        · unfold detect_presence
          rw [if_neg hc, if_neg hd, if_neg hc, if_neg hf, observedMacs_filter_truthy]
  · intro n hn
    by_cases hc : colleagues = []
    · subst hc
      simp [detect_presence] at hn
    · by_cases hd : devices = []
      · subst hd
        unfold detect_presence at hn
        rw [if_neg hc, if_pos rfl] at hn
        simp at hn
      · unfold detect_presence at hn
        rw [if_neg hc, if_neg hd, matchLoop_eq] at hn
        simp only [List.mem_map] at hn
        obtain ⟨cm, hcm, rfl⟩ := hn
        have hmem := List.mem_filter.mp hcm
        have hq := hmem.2
        simp at hq
        obtain ⟨d, hd', hdm, hm⟩ := (mem_observedMacs devices cm.2).mp hq
        exact ⟨d, cm.2, hd', hdm, hm⟩

/-! ## Lemmas about the fallback chain and the pipeline -/

/-- With `use_cache=False` the cache test is skipped and the three-way
fallback chain runs. -/
theorem get_all_devices_no_cache (st : ScannerState) (now : Int) (env : ScanEnv) :
    get_all_devices st now false env =
      (let d1 := scan_with_arp env st.iface
       let d2 := if d1 = [] then scan_with_nmap env st.network_range else d1
       let d3 := if d2 = [] then scan_arp_table env else d2
       ⟨d3, ⟨st.colleagues, d3, some now, st.cache_duration, st.network_range, st.iface⟩,
        true, d1.isEmpty, d2.isEmpty⟩) := by
  unfold get_all_devices
  rfl

/-- C4: `get_all_devices` tries arp-scan, then nmap, then the system ARP
table, in that order; the first non-empty result is returned and the
later strategies are not invoked — in particular an empty strategy 1
followed by a non-empty strategy 2 yields exactly strategy 2's list with
strategy 3 never invoked. -/
theorem get_all_devices_fallback (st : ScannerState) (now : Int) (env : ScanEnv) :
    (get_all_devices st now false env).ranArpScan = true ∧
    (scan_with_arp env st.iface ≠ [] →
      (get_all_devices st now false env).devices = scan_with_arp env st.iface ∧
      (get_all_devices st now false env).ranNmap = false ∧
      (get_all_devices st now false env).ranArpTable = false) ∧
    (scan_with_arp env st.iface = [] → scan_with_nmap env st.network_range ≠ [] →
      (get_all_devices st now false env).devices = scan_with_nmap env st.network_range ∧
      (get_all_devices st now false env).ranNmap = true ∧
      (get_all_devices st now false env).ranArpTable = false) ∧
    (scan_with_arp env st.iface = [] → scan_with_nmap env st.network_range = [] →
      (get_all_devices st now false env).devices = scan_arp_table env ∧
      (get_all_devices st now false env).ranArpTable = true) := by
  rw [get_all_devices_no_cache]
  by_cases h1 : scan_with_arp env st.iface = []
  · by_cases h2 : scan_with_nmap env st.network_range = []
    · simp [h1, h2]
    · simp [h1, h2]
  · simp [h1]

/-- Witness for C4: arp-scan is absent, nmap reports one device; the
result is nmap's list and the ARP table is not read. -/
theorem get_all_devices_fallback_witness :
    scan_with_arp envNmapOk stEmptyCache.iface = [] ∧
    scan_with_nmap envNmapOk stEmptyCache.network_range ≠ [] ∧
    (get_all_devices stEmptyCache 1000 false envNmapOk).devices =
      scan_with_nmap envNmapOk stEmptyCache.network_range ∧
    (get_all_devices stEmptyCache 1000 false envNmapOk).ranArpTable = false := by
  have h := (get_all_devices_fallback stEmptyCache 1000 envNmapOk).2.2.1
  have h1 : scan_with_arp envNmapOk stEmptyCache.iface = [] := by decide
  have h2 : scan_with_nmap envNmapOk stEmptyCache.network_range ≠ [] := by decide
  exact ⟨h1, h2, (h h1 h2).1, (h h1 h2).2.2⟩

/-- C3: for every configuration-file state and every behaviour of the
external tools, the presence pipeline returns a value (all raising
operations are modelled in `Except` and caught exactly where the source
catches them, so the composition is total) and the result is a valid
classification of whatever roster could be loaded: both lists are
sublists of the loaded roster names and every loaded name is classified;
a failed load degrades to the empty roster and two empty lists. -/
theorem detect_presence_pipeline_total_valid (cfg : ConfigSource) (st0 : ScannerState)
    (now : Int) (env : ScanEnv) :
    ∃ present absent st',
      detect_presence_pipeline cfg st0 now env = ((present, absent), st') ∧
      present.Sublist ((load_colleagues cfg).map Prod.fst) ∧
      absent.Sublist ((load_colleagues cfg).map Prod.fst) ∧
      (∀ n ∈ (load_colleagues cfg).map Prod.fst, n ∈ present ∨ n ∈ absent) ∧
      (load_colleagues cfg = [] → present = [] ∧ absent = []) := by
  obtain ⟨h1, h2, h3⟩ := detect_presence_sub_cover (load_colleagues cfg)
    (get_all_devices
      ⟨load_colleagues cfg, st0.devices_cache, st0.last_scan_time, st0.cache_duration,
       st0.network_range, st0.iface⟩ now true env).devices
  refine ⟨_, _, _, rfl, h1, h2, fun n hn => (h3 n).mp hn, ?_⟩
  intro hnil
  rw [hnil]
  exact ⟨rfl, rfl⟩

/-- Witness for C3 with an unreadable roster file and all tools raising. -/
theorem detect_presence_pipeline_total_valid_witness :
    ∃ present absent st',
      detect_presence_pipeline ConfigSource.unreadable stEmptyCache 0 envRaisedAll =
        ((present, absent), st') ∧
      present.Sublist ((load_colleagues ConfigSource.unreadable).map Prod.fst) ∧
      absent.Sublist ((load_colleagues ConfigSource.unreadable).map Prod.fst) ∧
      (∀ n ∈ (load_colleagues ConfigSource.unreadable).map Prod.fst,
        n ∈ present ∨ n ∈ absent) ∧
      (load_colleagues ConfigSource.unreadable = [] → present = [] ∧ absent = []) :=
  detect_presence_pipeline_total_valid ConfigSource.unreadable stEmptyCache 0 envRaisedAll

/-- C7 counterexample: at time 0, with a previous scan memoized at time 0
(`last_scan_time = some 0`, elapsed 0 < 300 = cache duration) but an
empty memoized list, `get_all_devices(use_cache=True)` runs the scan
chain instead of returning the cached value — so freshness alone does
not decide a cache hit; the cached list's contents matter. -/
theorem get_all_devices_cache_counterexample :
    stEmptyCache.last_scan_time = some 0 ∧
    ((0 : Int) - 0 < stEmptyCache.cache_duration) ∧
    (get_all_devices stEmptyCache 0 true envRaisedAll).ranArpScan = true ∧
    get_all_devices stEmptyCache 0 true envRaisedAll ≠
      ⟨stEmptyCache.devices_cache, stEmptyCache, false, false, false⟩ := by
  decide

/-- C7 amended: with `use_cache` enabled and a previous scan memoized at
time `t`, the cached list is returned unchanged with all three
strategies bypassed if and only if the elapsed time is below the cache
duration AND the memoized list is non-empty (an empty cached result is
never served, whatever its age). -/
theorem get_all_devices_cache_iff (st : ScannerState) (t now : Int) (env : ScanEnv)
    (h : st.last_scan_time = some t) :
    (get_all_devices st now true env = ⟨st.devices_cache, st, false, false, false⟩) ↔
      (now - t < st.cache_duration ∧ st.devices_cache ≠ []) := by
  unfold get_all_devices
  by_cases hcond : (true && !st.devices_cache.isEmpty && cacheFresh st now) = true
  · rw [if_pos hcond]
    simp only [Bool.true_and, Bool.and_eq_true] at hcond
    obtain ⟨hne, hfresh⟩ := hcond
    unfold cacheFresh at hfresh
    rw [h] at hfresh
    simp at hfresh hne
    exact ⟨fun _ => ⟨hfresh, hne⟩, fun _ => rfl⟩
  · rw [if_neg hcond]
    constructor
    · intro heq
      have hproj := congrArg GadOut.ranArpScan heq
      simp at hproj
    · rintro ⟨hfresh, hne⟩
      exfalso
      apply hcond
      simp only [Bool.true_and, Bool.and_eq_true]
      refine ⟨?_, ?_⟩
      · cases hcd : st.devices_cache with
        | nil => exact absurd hcd hne
        | cons a l => rfl
      · unfold cacheFresh
        rw [h]
        exact decide_eq_true hfresh

/-- Witness for C7 amended: a one-device cache scanned at time 0,
queried at time 10, is served without scanning. -/
theorem get_all_devices_cache_iff_witness :
    get_all_devices stOneCached 10 true envRaisedAll =
      ⟨stOneCached.devices_cache, stOneCached, false, false, false⟩ :=
  (get_all_devices_cache_iff stOneCached 0 10 envRaisedAll rfl).mpr (by decide)

/-- C6 counterexample: the `arp -a` call passes no timeout bound at all,
and an nmap run that exits non-zero but prints a scan report on stdout
yields a non-empty device list, not "no devices found". -/
theorem scan_timeout_exit_counterexample :
    arpTableInvocation.timeoutSec = none ∧
    scan_with_nmap envNmapNonzero "10.0.0.0/24".toList =
      [⟨"10.0.0.5".toList, some "0A:1B:2C:3D:4E:5F".toList, some "AcmeCo".toList, none⟩] := by
  decide

/-- C6 amended: the arp-scan and nmap subprocesses run under 30 s and
60 s timeouts, a timeout in any strategy yields the empty list (with
control falling through to the next strategy), and arp-scan treats a
non-zero exit as no devices found; however the `arp -a` subprocess is
invoked with no timeout, and the nmap and ARP-table strategies never
inspect the exit status — whatever stdout a completed run produced is
parsed regardless of the exit code. -/
theorem scan_timeout_exit_amended :
    (∀ iface, (arpScanInvocation iface).timeoutSec = some 30) ∧
    (∀ range, (nmapInvocation range).timeoutSec = some 60) ∧
    arpTableInvocation.timeoutSec = none ∧
    (∀ env iface, env (arpScanInvocation iface) = SubprocResult.timedout →
      scan_with_arp env iface = []) ∧
    (∀ env range, env (nmapInvocation range) = SubprocResult.timedout →
      scan_with_nmap env range = []) ∧
    (∀ env, env arpTableInvocation = SubprocResult.timedout →
      scan_arp_table env = []) ∧
    (∀ env iface rc out err,
      env (arpScanInvocation iface) = SubprocResult.completed rc out err → rc ≠ 0 →
      scan_with_arp env iface = []) ∧
    (∀ env range rc out err,
      env (nmapInvocation range) = SubprocResult.completed rc out err →
      scan_with_nmap env range = [] ∨ scan_with_nmap env range = nmapParse (splitNl out)) ∧
    (∀ env rc out err,
      env arpTableInvocation = SubprocResult.completed rc out err →
      scan_arp_table env = (splitNl out).filterMap arpTableParseLine) ∧
    (∀ st now env, scan_with_arp env st.iface = [] →
      (get_all_devices st now false env).ranNmap = true) := by
  refine ⟨fun _ => rfl, fun _ => rfl, rfl, ?_, ?_, ?_, ?_, ?_, ?_, ?_⟩
  · intro env iface h
    unfold scan_with_arp
    cases hw : env (whichInvocation "arp-scan".toList) with
    | completed rc out err =>
      by_cases hs : stripL out = []
      · simp [hs]
      · simp [hs, h]
    | timedout => rfl
    | raised => rfl
  · intro env range h
    unfold scan_with_nmap
    cases hw : env (whichInvocation "nmap".toList) with
    | completed rc out err =>
      by_cases hs : stripL out = []
      · simp [hs]
      · simp [hs, h]
    | timedout => rfl
    | raised => rfl
  · intro env h
    unfold scan_arp_table
    rw [h]
  · intro env iface rc out err h hrc
    unfold scan_with_arp
    cases hw : env (whichInvocation "arp-scan".toList) with
    | completed rc2 out2 err2 =>
      by_cases hs : stripL out2 = []
      · simp [hs]
      · simp [hs, h, hrc]
    | timedout => rfl
    | raised => rfl
  · intro env range rc out err h
    unfold scan_with_nmap
    cases hw : env (whichInvocation "nmap".toList) with
    | completed rc2 out2 err2 =>
      by_cases hs : stripL out2 = []
      · exact Or.inl (by simp [hs])
      · exact Or.inr (by simp [hs, h])
    | timedout => exact Or.inl rfl
    | raised => exact Or.inl rfl
  · intro env rc out err h
    unfold scan_arp_table
    rw [h]
  · intro st now env h
    rw [get_all_devices_no_cache]
    simp [h]

/-- Witness for C6 amended: an nmap scan that times out yields no
devices. -/
theorem scan_timeout_exit_amended_witness :
    scan_with_nmap envNmapTimeout "10.0.0.0/24".toList = [] :=
  scan_timeout_exit_amended.2.2.2.2.1 envNmapTimeout "10.0.0.0/24".toList (by decide)

/-! ## MAC validity of the devices each strategy returns -/

theorem isMacSep_not_hex (x : Char) (h : isMacSep x = true) : isHexChar x = false := by
  unfold isMacSep at h
  simp at h
  rcases h with h | h <;> subst h <;> decide

theorem macPairsSep_filter_len (n : Nat) (s : Str) (h : macPairsSep n s = true) :
    (s.filter isHexChar).length = 2 * n + 2 := by
  induction n, s using macPairsSep.induct with
  | case1 a b =>
    unfold macPairsSep at h
    simp [Bool.and_eq_true] at h
    simp [List.filter_cons, h.1, h.2]
  | case2 n a b x rest ih =>
    unfold macPairsSep at h
    simp only [Bool.and_eq_true] at h
    obtain ⟨⟨⟨ha, hb⟩, hx⟩, hrest⟩ := h
    have hxh := isMacSep_not_hex x hx
    simp [List.filter_cons, ha, hb, hxh, ih hrest]
    ring
  | case3 t s h0 h1 =>
    exfalso
    unfold macPairsSep at h
    split at h
    · exact h0 _ _ rfl rfl
    · exact h1 _ _ _ _ _ rfl rfl
    · exact absurd h (by simp)

/-- Each device produced by the arp-scan line parser carries a
successfully normalized MAC. -/
theorem arpParseLine_mac (line : Str) (d : Device) (h : arpParseLine line = some d) :
    ∃ m, d.mac = some m ∧ isNormalizedForm m = true := by
  unfold arpParseLine at h
  split at h
  · exact absurd h (by simp)
  · cases hsplit : splitOnCh '\t' line with
    | nil =>
      rw [hsplit] at h
      exact absurd h (by simp)
    | cons p0 tail =>
      cases tail with
      | nil =>
        rw [hsplit] at h
        exact absurd h (by simp)
      | cons p1 rest =>
        rw [hsplit] at h
        by_cases hre : isArpMacRe (stripL p1) = true
        · simp only [hre, if_true] at h
          have h12 : ((stripL p1).filter isHexChar).length = 12 :=
            macPairsSep_filter_len 5 (stripL p1) hre
          obtain ⟨h1, _, h3, _⟩ := normalize_mac_core (stripL p1) h12
          injection h with h
          subst h
          exact ⟨_, h1, h3⟩
        · simp [hre] at h

/-- Invariant of the nmap parsing loop: every accumulated device's MAC
field is `normalize_mac` of some capture — `none` or a canonical form. -/
theorem nmapFold_mac_inv (lines : List Str) (acc : List Device × Option Str)
    (hacc : ∀ d ∈ acc.1, d.mac = none ∨ ∃ m, d.mac = some m ∧ isNormalizedForm m = true) :
    ∀ d ∈ (lines.foldl nmapStep acc).1,
      d.mac = none ∨ ∃ m, d.mac = some m ∧ isNormalizedForm m = true := by
  induction lines generalizing acc with
  | nil => exact hacc
  | cons line rest ih =>
    rw [List.foldl_cons]
    refine ih (nmapStep acc line) ?_
    intro d hd
    unfold nmapStep at hd
    cases hipm : reSearchCap false "Nmap scan report for ".toList isDigitDot line with
    | some ip =>
      simp only [hipm] at hd
      cases hmac : reSearchCap true "MAC Address: ".toList isWordColonChar line with
      | some rawmac =>
        simp only [hmac] at hd
        rw [List.mem_append] at hd
        rcases hd with hd | hd
        · exact hacc d hd
        · simp at hd
          subst hd
          rcases normalize_mac_cases rawmac with hn | ⟨m, hm, hf, _⟩
          · exact Or.inl hn
          · exact Or.inr ⟨m, hm, hf⟩
      | none =>
        simp only [hmac] at hd
        exact hacc d hd
    | none =>
      simp only [hipm] at hd
      cases hmac : reSearchCap true "MAC Address: ".toList isWordColonChar line with
      | some rawmac =>
        simp only [hmac] at hd
        cases hprev : acc.2 with
        | some ip =>
          simp only [hprev] at hd
          rw [List.mem_append] at hd
          rcases hd with hd | hd
          · exact hacc d hd
          · simp at hd
            subst hd
            rcases normalize_mac_cases rawmac with hn | ⟨m, hm, hf, _⟩
            · exact Or.inl hn
            · exact Or.inr ⟨m, hm, hf⟩
        | none =>
          simp only [hprev] at hd
          exact hacc d hd
      | none =>
        simp only [hmac] at hd
        exact hacc d hd

theorem arpTableParseLine_mac (line : Str) (d : Device)
    (h : arpTableParseLine line = some d) :
    d.mac = none ∨ ∃ m, d.mac = some m ∧ isNormalizedForm m = true := by
  unfold arpTableParseLine at h
  split at h
  · rename_i host ip mac hsearch
    injection h with h
    subst h
    rcases normalize_mac_cases mac with hn | ⟨m, hm, hf, _⟩
    · exact Or.inl hn
    · exact Or.inr ⟨m, hm, hf⟩
  · exact absurd h (by simp)

/-- C5 counterexample: the nmap strategy keeps — rather than drops — an
entry whose MAC fails to normalize: a 10-hex-digit MAC in the scan
report yields a returned device with `mac = None`. -/
theorem scan_macs_counterexample :
    normalize_mac "AA:BB:CC:DD:EE".toList = none ∧
    scan_with_nmap envNmapShortMac "10.0.0.0/24".toList =
      [⟨"10.0.0.5".toList, none, some "AcmeCo".toList, none⟩] := by
  decide

/-- C5 amended: every strategy normalizes each discovered MAC via
`_normalize_mac`; the arp-scan strategy only emits devices whose MAC is
a successfully normalized canonical form (its regex plausibility check
guarantees normalization succeeds), but the nmap and ARP-table
strategies keep entries whose MAC fails to normalize, storing
`mac = None` (such entries are only discarded later, by the matcher). -/
theorem scan_macs_amended :
    (∀ env iface d, d ∈ scan_with_arp env iface →
      ∃ m, d.mac = some m ∧ isNormalizedForm m = true) ∧
    (∀ env range d, d ∈ scan_with_nmap env range →
      d.mac = none ∨ ∃ m, d.mac = some m ∧ isNormalizedForm m = true) ∧
    (∀ env d, d ∈ scan_arp_table env →
      d.mac = none ∨ ∃ m, d.mac = some m ∧ isNormalizedForm m = true) := by
  refine ⟨?_, ?_, ?_⟩
  · intro env iface d hd
    revert hd
    unfold scan_with_arp
    cases hw : env (whichInvocation "arp-scan".toList) with
    | completed rc out err =>
      by_cases hs : stripL out = []
      · simp [hs]
      · simp only [hs, if_false]
        cases hr : env (arpScanInvocation iface) with
        | completed rc2 out2 err2 =>
          by_cases hrc : rc2 = 0
          · simp only [hrc, ne_eq, not_true_eq_false, if_false]
            intro hd
            obtain ⟨line, _, hline⟩ := List.mem_filterMap.mp hd
            exact arpParseLine_mac line d hline
          · simp [hrc]
        | timedout => simp
        | raised => simp
    | timedout => simp
    | raised => simp
  · intro env range d hd
    revert hd
    unfold scan_with_nmap
    cases hw : env (whichInvocation "nmap".toList) with
    | completed rc out err =>
      by_cases hs : stripL out = []
      · simp [hs]
      · simp only [hs, if_false]
        cases hr : env (nmapInvocation range) with
        | completed rc2 out2 err2 =>
          intro hd
          exact nmapFold_mac_inv (splitNl out2) ([], none) (by simp) d hd
        | timedout => simp
        | raised => simp
    | timedout => simp
    | raised => simp
  · intro env d hd
    revert hd
    unfold scan_arp_table
    cases hw : env arpTableInvocation with
    | completed rc out err =>
      intro hd
      obtain ⟨line, _, hline⟩ := List.mem_filterMap.mp hd
      exact arpTableParseLine_mac line d hline
    | timedout => simp
    | raised => simp

/-- Witness for C5 amended: the device reported by a concrete arp-scan
run carries a canonical normalized MAC. -/
theorem scan_macs_amended_witness :
    ∃ m, (⟨"192.168.1.2".toList, some "0A:1B:2C:3D:4E:5F".toList,
            some "Acme".toList, none⟩ : Device).mac = some m ∧
      isNormalizedForm m = true :=
  scan_macs_amended.1 envArpOk "wlan0".toList _ (by decide)

/-- Witness for C10: a device with `mac = None` is ignored. -/
theorem detect_presence_ignores_invalid_witness :
    detect_presence [("Alice", "0A:1B:2C:3D:4E:5F".toList)]
        [⟨"10.0.0.5".toList, none, some "AcmeCo".toList, none⟩] =
      detect_presence [("Alice", "0A:1B:2C:3D:4E:5F".toList)]
        ([⟨"10.0.0.5".toList, none, some "AcmeCo".toList, none⟩].filter truthyMac) :=
  (detect_presence_ignores_invalid _ _).1
